import Mathlib

/-!
Shallow embedding of the `httpclient` package (Nathene/sensible).

The package wraps a standard HTTP client with a retry loop (`Client.Do`),
per-status-code backoff strategies (`getNextWait`, `shouldRetry`) and a
size-bounded response-body reader (`LimitedReader` / `limitedReadCloser`).

Modelling conventions:
- `time.Duration` (int64 nanoseconds) is modelled as `Int`; the duration
  values appearing in the claims are far below the int64 overflow range.
- The Go map `map[int]BackoffStrategy` is modelled as an association list
  `List (Int × Int)` with Go assignment semantics (insert-or-replace);
  within the package every client is built by `New`, so the map is never
  the Go `nil` map.
- The underlying transport is an environment: each attempt's outcome
  (transport error, or a response with a status code and a body stream)
  is supplied by a function `Nat → Outcome`.
- The request context is an environment oracle `cancel : Nat → Bool`:
  `cancel i = true` means the context becomes done during the backoff
  wait that follows attempt `i` (the `select` in `Do` then takes the
  `ctx.Done()` branch); `ctxErr` is the value of `req.Context().Err()`.
- `Do` is observed through a trace: the number of transport attempts
  performed, the list of completed backoff sleeps, and the returned
  `(resp, err)` pair (each component `Option`, mirroring Go nil).
-/

/-- Go errors: `io.EOF` is a distinguished error value used as the
end-of-stream signal; all other errors are tagged messages. -/
inductive GoErr where
  | eof
  | msg (s : String)
deriving DecidableEq, Repr

/-- `time.Second` in nanoseconds (Go `time.Duration` unit). -/
def second : Int := 1000000000

-- BackoffStrategy is a Go int; the two declared constants follow.
def constantBackoff : Int := 0
def exponentialBackoff : Int := 1

-- net/http status-code constants used by the package.
def StatusTooManyRequests : Int := 429
def StatusServiceUnavailable : Int := 503
def StatusGatewayTimeout : Int := 504
def StatusBadGateway : Int := 502

/-- A byte stream standing for a response body (`io.ReadCloser`):
the bytes still unread, the error the stream yields once drained
(`io.EOF` for a normal body, another value for e.g. a connection reset
mid-body), and a counter of how many times `Close` was called on it.
`errOnReclose` configures whether this particular closer objects to a
second `Close` (the wrapper under verification gives no guarantee either
way, so both kinds of underlying closer exist in the environment). -/
structure CStream where
  bytes : List Nat
  endErr : GoErr
  closeCount : Nat
  errOnReclose : Bool
deriving DecidableEq, Repr

/-- `Read(p)` with `len(p) = m` on the underlying stream: a drained
stream reports its terminal error; otherwise up to `m` bytes are
delivered with no error. -/
def CStream.read (s : CStream) (m : Nat) : (Nat × Option GoErr) × CStream :=
  if s.bytes = [] then ((0, some s.endErr), s)
  else if m = 0 then ((0, none), s)
  else
    let n := min m s.bytes.length
    ((n, none), { s with bytes := s.bytes.drop n })

/-- `Close()` on the underlying stream: counts the call; a closer with
`errOnReclose` returns an error from the second call on. -/
def CStream.close (s : CStream) : Option GoErr × CStream :=
  (if s.closeCount > 0 ∧ s.errOnReclose then some (GoErr.msg "already closed") else none,
   { s with closeCount := s.closeCount + 1 })

/-- The state of the wrapper built by `Client.LimitedReader`: a
`limitedReadCloser` whose `R` field is `io.LimitReader(body, maxResponseSize)`
(that is, an `io.LimitedReader` with budget `N` over the body) and whose
`C` field is the same body. In Go both fields alias one object, so the
state is the shared stream plus the remaining budget. -/
structure limitedReadCloser where
  stream : CStream
  N : Int
deriving DecidableEq, Repr

/-- `io.LimitedReader.Read` (Go standard library), to which
`limitedReadCloser.Read` delegates: exhausted budget yields `(0, io.EOF)`;
otherwise the buffer is truncated to the budget, the underlying `Read`
runs on it verbatim, and the budget shrinks by the bytes delivered. -/
def limitedReadCloser.Read (l : limitedReadCloser) (m : Nat) :
    (Nat × Option GoErr) × limitedReadCloser :=
  if l.N ≤ 0 then ((0, some GoErr.eof), l)
  else
    let m2 := if (m : Int) > l.N then l.N.toNat else m
    let r := l.stream.read m2
    ((r.1.1, r.1.2), { stream := r.2, N := l.N - (r.1.1 : Int) })

/-- `limitedReadCloser.Close`: returns `l.C.Close()` — every call is
delegated to the underlying closer. -/
def limitedReadCloser.Close (l : limitedReadCloser) : Option GoErr × limitedReadCloser :=
  let r := l.stream.close
  (r.1, { l with stream := r.2 })

/-- Go map assignment `m[k] = v`: replace the binding if the key is
present, else append it. -/
def mapInsert (m : List (Int × Int)) (k v : Int) : List (Int × Int) :=
  if (m.lookup k).isSome then m.map (fun p => if p.1 = k then (k, v) else p)
  else m ++ [(k, v)]

/-- The `Client` configuration fields that the retry loop reads
(the embedded `http.Client`, transport and timeout fields are the
out-of-scope collaborators). -/
structure Client where
  retryMax : Int
  retryWaitMin : Int
  retryWaitMax : Int
  maxResponseSize : Int
  backoffStrategy : List (Int × Int)
deriving DecidableEq, Repr

/-- The default backoff map built by `New`:
429→Exponential, 503→Constant, 504→Constant, 502→Constant. -/
def defaultBackoffStrategy : List (Int × Int) :=
  [(StatusTooManyRequests, exponentialBackoff),
   (StatusServiceUnavailable, constantBackoff),
   (StatusGatewayTimeout, constantBackoff),
   (StatusBadGateway, constantBackoff)]

/-- An `Option` in the package: a function customizing the client. -/
def ClientOption := Client → Client

/-- `New`: the defaults (`retryMax = 3`, waits 1s/15s, 1MB body cap,
default backoff map), then each option applied in order. -/
def New (opts : List ClientOption) : Client :=
  opts.foldl (fun c opt => opt c)
    { retryMax := 3
      retryWaitMin := 1 * second
      retryWaitMax := 15 * second
      maxResponseSize := 1024 * 1024
      backoffStrategy := defaultBackoffStrategy }

def WithRetryMax (m : Int) : ClientOption := fun c => { c with retryMax := m }

def WithRetryWaitMin (m : Int) : ClientOption := fun c => { c with retryWaitMin := m }

def WithRetryWaitMax (m : Int) : ClientOption := fun c => { c with retryWaitMax := m }

def WithMaxResponseSize (maxBytes : Int) : ClientOption :=
  fun c => { c with maxResponseSize := maxBytes }

/-- `WithBackoffStrategy`: map assignment for one status code (the map
coming from `New` is never nil, so the nil-guard branch is vacuous). -/
def WithBackoffStrategy (statusCode strategy : Int) : ClientOption :=
  fun c => { c with backoffStrategy := mapInsert c.backoffStrategy statusCode strategy }

/-- `shouldRetry`: the hard-coded switch over 429, 503, 504, 502. -/
def shouldRetry (statusCode : Int) : Bool :=
  if statusCode = StatusTooManyRequests then true
  else if statusCode = StatusServiceUnavailable then true
  else if statusCode = StatusGatewayTimeout then true
  else if statusCode = StatusBadGateway then true
  else false

/-- `getNextWait`: the configured strategy for the status code, with
constant backoff as the default for an unconfigured code; under
`ExponentialBackoff` the wait doubles and is capped at `retryWaitMax`. -/
def Client.getNextWait (c : Client) (statusCode currentWait : Int) : Int :=
  match c.backoffStrategy.lookup statusCode with
  | none => c.retryWaitMin
  | some strategy =>
    if strategy = exponentialBackoff then
      let wait := currentWait * 2
      if wait > c.retryWaitMax then c.retryWaitMax else wait
    else if strategy = constantBackoff then c.retryWaitMin
    else c.retryWaitMin

/-- `Client.LimitedReader`: wraps a body in a `limitedReadCloser` whose
reader is `io.LimitReader(body, c.maxResponseSize)` and whose closer is
the body itself. -/
def Client.LimitedReader (c : Client) (body : CStream) : limitedReadCloser :=
  { stream := body, N := c.maxResponseSize }

/-- One attempt's outcome from the underlying transport: either an error
with no response, or a response carrying a status code and a body. -/
inductive Outcome where
  | transportError (e : GoErr)
  | response (status : Int) (body : CStream)
deriving DecidableEq, Repr

/-- The status-code key `Do` feeds to `getNextWait` after this outcome
triggers a retry: the response's code, or the sentinel `0` after a
transport error. -/
def outcomeKey : Outcome → Int
  | Outcome.transportError _ => 0
  | Outcome.response s _ => s

/-- Whether this outcome makes `Do` retry when attempts remain: any
transport error, or a response whose code passes `shouldRetry`. -/
def triggersRetry : Outcome → Bool
  | Outcome.transportError _ => true
  | Outcome.response s _ => shouldRetry s

/-- The response as returned by `Do`: status code plus the wrapped body. -/
structure Response where
  status : Int
  body : limitedReadCloser
deriving DecidableEq, Repr

/-- Observable trace of one `Do` call: transport attempts performed,
completed backoff sleeps in order, and the returned `(resp, err)` pair. -/
structure DoTrace where
  attempts : Nat
  waits : List Int
  resp : Option Response
  err : Option GoErr
deriving DecidableEq, Repr

/-- The retry loop of `Do`, for attempt index `i` with `fuel + 1`
iterations left to run (`fuel = 0` exactly when `i = retryMax`):

- transport error on the final attempt: return `(nil, err)`;
- transport error otherwise: sleep `wait` (unless the context is done,
  which returns `(nil, ctx.Err())`), recompute the wait via
  `getNextWait(0, wait)`, continue;
- retriable status with attempts remaining: close the body, sleep
  (same context race), recompute via `getNextWait(status, wait)`,
  continue;
- any other response: wrap the body with `LimitedReader` and return
  `(resp, nil)`. -/
def doAux (c : Client) (outcomes : Nat → Outcome) (cancel : Nat → Bool) (ctxErr : GoErr)
    (wait : Int) (i : Nat) : Nat → DoTrace
  | 0 => ⟨0, [], none, none⟩
  | fuel + 1 =>
    match outcomes i with
    | Outcome.transportError e =>
      if fuel = 0 then ⟨1, [], none, some e⟩
      else if cancel i then ⟨1, [], none, some ctxErr⟩
      else
        let t := doAux c outcomes cancel ctxErr (c.getNextWait 0 wait) (i + 1) fuel
        ⟨t.attempts + 1, wait :: t.waits, t.resp, t.err⟩
    | Outcome.response s body =>
      if shouldRetry s ∧ fuel ≠ 0 then
        if cancel i then ⟨1, [], none, some ctxErr⟩
        else
          let t := doAux c outcomes cancel ctxErr (c.getNextWait s wait) (i + 1) fuel
          ⟨t.attempts + 1, wait :: t.waits, t.resp, t.err⟩
      else ⟨1, [], some ⟨s, c.LimitedReader body⟩, none⟩

/-- `Client.Do`: `wait` starts at `retryWaitMin`; the loop runs for
`i = 0 .. retryMax`. A negative `retryMax` means the loop body never
executes and the zero-valued `(resp, err) = (nil, nil)` is returned. -/
def Client.Do (c : Client) (outcomes : Nat → Outcome) (cancel : Nat → Bool)
    (ctxErr : GoErr) : DoTrace :=
  if c.retryMax < 0 then ⟨0, [], none, none⟩
  else doAux c outcomes cancel ctxErr c.retryWaitMin 0 (c.retryMax.toNat + 1)

/-- The wait-duration sequence for a fixed status code `s`: the first
wait is `retryWaitMin` and each later wait is recomputed by
`getNextWait` from its predecessor. -/
def waitSeq (c : Client) (s : Int) : Nat → Int
  | 0 => c.retryWaitMin
  | k + 1 => c.getNextWait s (waitSeq c s k)

/-- The wait-duration sequence of a run with mixed outcomes: the wait
after attempt `k` is recomputed from the key of attempt `k`'s outcome. -/
def genWaitSeq (c : Client) (o : Nat → Outcome) : Nat → Int
  | 0 => c.retryWaitMin
  | k + 1 => c.getNextWait (outcomeKey (o k)) (genWaitSeq c o k)

/-- The list of `L` consecutive sleeps performed from attempt `i`
onwards when the current wait is `w` and every attempt retries. -/
def seqFrom (c : Client) (o : Nat → Outcome) (w : Int) (i : Nat) : Nat → List Int
  | 0 => []
  | L + 1 => w :: seqFrom c o (c.getNextWait (outcomeKey (o i)) w) (i + 1) L

/-- Reading a bounded body to exhaustion with a buffer of `b` bytes per
call: the cumulative byte count delivered before the first read that
returns an error or no data, together with the final reader state. -/
def drain (b : Nat) : Nat → limitedReadCloser → Nat × limitedReadCloser
  | 0, l => (0, l)
  | fuel + 1, l =>
    let r := l.Read b
    if r.1.2.isSome ∨ r.1.1 = 0 then (r.1.1, r.2)
    else
      let t := drain b fuel r.2
      (r.1.1 + t.1, t.2)

/-- Closing a bounded body reader `k` times in a row. -/
def closeIter : Nat → limitedReadCloser → limitedReadCloser
  | 0, l => l
  | k + 1, l => closeIter k (l.Close).2

-- Concrete fixtures used by witnesses and counterexamples.
def bodyEx : CStream := ⟨[], GoErr.eof, 0, false⟩
def noCancel : Nat → Bool := fun _ => false
def ctxCanceled : GoErr := GoErr.msg "context canceled"

lemma doAux_step_retry (c : Client) (o : Nat → Outcome) (cz : Nat → Bool) (e : GoErr)
    (w : Int) (i f : Nat) (hf : f ≠ 0) (ht : triggersRetry (o i) = true)
    (hc : cz i = false) :
    doAux c o cz e w i (f + 1) =
      (let t := doAux c o cz e (c.getNextWait (outcomeKey (o i)) w) (i + 1) f
       ⟨t.attempts + 1, w :: t.waits, t.resp, t.err⟩) := by
  cases ho : o i with
  | transportError er =>
    simp only [doAux, ho, hf, if_false, hc, Bool.false_eq_true, outcomeKey]
  | response s b =>
    have hs : shouldRetry s = true := by simpa [triggersRetry, ho] using ht
    simp only [doAux, ho, hs, hf, ne_eq, not_false_iff, and_self, if_true, hc,
      Bool.false_eq_true, if_false, outcomeKey]

lemma doAux_run (c : Client) (o : Nat → Outcome) (cz : Nat → Bool) (e : GoErr)
    (s : Int) (b : CStream) :
    ∀ (f i : Nat) (w : Int),
      (∀ j, i ≤ j → j < i + f → triggersRetry (o j) = true ∧ cz j = false) →
      o (i + f) = Outcome.response s b →
      doAux c o cz e w i (f + 1) =
        ⟨f + 1, seqFrom c o w i f, some ⟨s, c.LimitedReader b⟩, none⟩ := by
  intro f
  induction f with
  | zero =>
    intro i w _ ho
    simp only [Nat.add_zero] at ho
    simp [doAux, ho, seqFrom]
  | succ g ih =>
    intro i w hall ho
    have ht := hall i (le_refl i) (by omega)
    rw [doAux_step_retry c o cz e w i (g + 1) (by omega) ht.1 ht.2]
    have hrec := ih (i + 1) (c.getNextWait (outcomeKey (o i)) w)
      (fun j hj1 hj2 => hall j (by omega) (by omega))
      (by rw [show i + 1 + g = i + (g + 1) by omega]; exact ho)
    simp only [hrec, seqFrom]

lemma doAux_run_err (c : Client) (o : Nat → Outcome) (cz : Nat → Bool) (e : GoErr)
    (er : GoErr) :
    ∀ (f i : Nat) (w : Int),
      (∀ j, i ≤ j → j < i + f → triggersRetry (o j) = true ∧ cz j = false) →
      o (i + f) = Outcome.transportError er →
      doAux c o cz e w i (f + 1) =
        ⟨f + 1, seqFrom c o w i f, none, some er⟩ := by
  intro f
  induction f with
  | zero =>
    intro i w _ ho
    simp only [Nat.add_zero] at ho
    simp [doAux, ho, seqFrom]
  | succ g ih =>
    intro i w hall ho
    have ht := hall i (le_refl i) (by omega)
    rw [doAux_step_retry c o cz e w i (g + 1) (by omega) ht.1 ht.2]
    have hrec := ih (i + 1) (c.getNextWait (outcomeKey (o i)) w)
      (fun j hj1 hj2 => hall j (by omega) (by omega))
      (by rw [show i + 1 + g = i + (g + 1) by omega]; exact ho)
    simp only [hrec, seqFrom]

lemma doAux_cancel_run (c : Client) (o : Nat → Outcome) (cz : Nat → Bool) (e : GoErr) :
    ∀ (L f i : Nat) (w : Int), L < f →
      (∀ j, i ≤ j → j < i + L → triggersRetry (o j) = true ∧ cz j = false) →
      triggersRetry (o (i + L)) = true → cz (i + L) = true →
      doAux c o cz e w i (f + 1) =
        ⟨L + 1, seqFrom c o w i L, none, some e⟩ := by
  intro L
  induction L with
  | zero =>
    intro f i w hLf _ ht hc
    simp only [Nat.add_zero] at ht hc
    cases ho : o i with
    | transportError er =>
      simp [doAux, ho, hc, Nat.pos_iff_ne_zero.mp hLf, seqFrom]
    | response s b =>
      have hs : shouldRetry s = true := by simpa [triggersRetry, ho] using ht
      simp [doAux, ho, hs, hc, Nat.pos_iff_ne_zero.mp hLf, seqFrom]
  | succ g ih =>
    intro f i w hLf hall ht hc
    obtain ⟨f2, rfl⟩ : ∃ f2, f = f2 + 1 := ⟨f - 1, by omega⟩
    have hstep := hall i (le_refl i) (by omega)
    rw [doAux_step_retry c o cz e w i (f2 + 1) (by omega) hstep.1 hstep.2]
    have hrec := ih f2 (i + 1) (c.getNextWait (outcomeKey (o i)) w) (by omega)
      (fun j hj1 hj2 => hall j (by omega) (by omega))
      (by rw [show i + 1 + g = i + (g + 1) by omega]; exact ht)
      (by rw [show i + 1 + g = i + (g + 1) by omega]; exact hc)
    simp only [hrec, seqFrom]

lemma doAux_accept_now (c : Client) (o : Nat → Outcome) (cz : Nat → Bool) (e : GoErr)
    (s : Int) (b : CStream) (i f : Nat) (w : Int)
    (hs : shouldRetry s = false) (ho : o i = Outcome.response s b) :
    doAux c o cz e w i (f + 1) = ⟨1, [], some ⟨s, c.LimitedReader b⟩, none⟩ := by
  simp [doAux, ho, hs]

lemma doAux_attempts_pos (c : Client) (o : Nat → Outcome) (cz : Nat → Bool) (e : GoErr)
    (i f : Nat) (w : Int) : 1 ≤ (doAux c o cz e w i (f + 1)).attempts := by
  cases ho : o i with
  | transportError er =>
    by_cases hf : f = 0
    · simp [doAux, ho, hf]
    · by_cases hc : cz i
      · simp [doAux, ho, hf, hc]
      · simp [doAux, ho, hf, hc]
  | response s b =>
    by_cases hr : shouldRetry s = true ∧ f ≠ 0
    · by_cases hc : cz i
      · simp [doAux, ho, hr, hc]
      · simp [doAux, ho, hr, hc]
    · simp [doAux, ho, hr]

lemma doAux_waits_take (c : Client) (o : Nat → Outcome) (cz : Nat → Bool) (e : GoErr) :
    ∀ (L f i : Nat) (w : Int), L ≤ f →
      (∀ j, i ≤ j → j < i + L → triggersRetry (o j) = true ∧ cz j = false) →
      (doAux c o cz e w i (f + 1)).waits.take L = seqFrom c o w i L := by
  intro L
  induction L with
  | zero => intro f i w _ _; simp [seqFrom]
  | succ g ih =>
    intro f i w hLf hall
    obtain ⟨f2, rfl⟩ : ∃ f2, f = f2 + 1 := ⟨f - 1, by omega⟩
    have hstep := hall i (le_refl i) (by omega)
    rw [doAux_step_retry c o cz e w i (f2 + 1) (by omega) hstep.1 hstep.2]
    simp only [List.take_succ_cons, seqFrom]
    exact congrArg (w :: ·)
      (ih f2 (i + 1) (c.getNextWait (outcomeKey (o i)) w) (by omega)
        (fun j hj1 hj2 => hall j (by omega) (by omega)))

lemma seqFrom_genWaitSeq (c : Client) (o : Nat → Outcome) :
    ∀ (L k : Nat), seqFrom c o (genWaitSeq c o k) k L =
      (List.range L).map (fun j => genWaitSeq c o (k + j)) := by
  intro L
  induction L with
  | zero => intro k; simp [seqFrom]
  | succ g ih =>
    intro k
    rw [List.range_succ_eq_map]
    simp only [seqFrom, List.map_cons, Nat.add_zero, List.map_map]
    refine congrArg₂ _ rfl ?_
    rw [show c.getNextWait (outcomeKey (o k)) (genWaitSeq c o k) = genWaitSeq c o (k + 1)
      from rfl, ih (k + 1)]
    refine List.map_congr_left (fun j _ => ?_)
    simp only [Function.comp_apply]
    exact congrArg _ (by omega)

lemma genWaitSeq_fixed (c : Client) (o : Nat → Outcome) (s : Int) (bs : Nat → CStream)
    (ho : ∀ j, o j = Outcome.response s (bs j)) :
    ∀ k, genWaitSeq c o k = waitSeq c s k := by
  intro k
  induction k with
  | zero => rfl
  | succ g ih => simp [genWaitSeq, waitSeq, ho g, outcomeKey, ih]

lemma drain_spec (b : Nat) (hb : 1 ≤ b) :
    ∀ (fuel : Nat) (l : limitedReadCloser), 0 ≤ l.N →
      l.N.toNat ≤ l.stream.bytes.length → l.N.toNat + 1 ≤ fuel →
      (drain b fuel l).1 = l.N.toNat ∧
      (drain b fuel l).2.N = 0 ∧
      (drain b fuel l).2.stream.bytes.length = l.stream.bytes.length - l.N.toNat ∧
      (drain b fuel l).2.stream.closeCount = l.stream.closeCount ∧
      (drain b fuel l).2.stream.endErr = l.stream.endErr ∧
      (drain b fuel l).2.stream.errOnReclose = l.stream.errOnReclose := by
  intro fuel
  induction fuel with
  | zero => intro l _ _ hf; omega
  | succ g ih =>
    intro l hN0 hNlen hf
    by_cases hN : l.N ≤ 0
    · have hN0eq : l.N = 0 := le_antisymm hN hN0
      simp [drain, limitedReadCloser.Read, hN, hN0eq]
    · push_neg at hN
      have hNpos : 1 ≤ l.N.toNat := by omega
      have hbytes : l.stream.bytes ≠ [] := by
        intro hemp
        rw [hemp] at hNlen
        simp at hNlen
        omega
      set m2 := if (b : Int) > l.N then l.N.toNat else b with hm2
      have hm2pos : 1 ≤ m2 := by
        rw [hm2]; split <;> omega
      have hm2le : m2 ≤ l.N.toNat := by
        rw [hm2]; split
        · omega
        · next h => omega
      have hn := min_le_left m2 l.stream.bytes.length
      set n := min m2 l.stream.bytes.length with hnn
      have hnpos : 1 ≤ n := by
        rw [hnn]
        exact le_min hm2pos (by omega)
      have hnle : n ≤ l.N.toNat := le_trans hn hm2le
      have hread : l.Read b =
          ((n, none), ⟨{ l.stream with bytes := l.stream.bytes.drop n }, l.N - (n : Int)⟩) := by
        rw [limitedReadCloser.Read]
        simp only [not_le.mpr hN, if_false]
        rw [CStream.read]
        simp only [hbytes, if_false, Nat.pos_iff_ne_zero.mp (lt_of_lt_of_le Nat.zero_lt_one hm2pos),
          ite_false]
      rw [drain, hread]
      simp only [Option.isSome_none, Bool.false_eq_true, false_or,
        Nat.pos_iff_ne_zero.mp hnpos, if_false]
      have hrec := ih ⟨{ l.stream with bytes := l.stream.bytes.drop n }, l.N - (n : Int)⟩
        (by simp; omega)
        (by simp [List.length_drop]; omega)
        (by simp; omega)
      simp only [List.length_drop] at hrec
      refine ⟨?_, ?_, ?_, ?_, ?_, ?_⟩
      · rw [hrec.1]; simp; omega
      · exact hrec.2.1
      · rw [hrec.2.2.1]; simp; omega
      · exact hrec.2.2.2.1
      · exact hrec.2.2.2.2.1
      · exact hrec.2.2.2.2.2

/-- C10: when `retryMax` is negative (e.g. set through `WithRetryMax(-1)`,
violating the spec precondition `retryMax ≥ 0`), the attempt loop body of
`Do` never executes: no request is issued and `(nil, nil)` is returned. -/
theorem c10_negative_retryMax_nil_nil (c : Client) (o : Nat → Outcome)
    (cz : Nat → Bool) (e : GoErr) (h : c.retryMax < 0) :
    c.Do o cz e = ⟨0, [], none, none⟩ := by
  rw [Client.Do, if_pos h]

/-- Witness for C10 at the client built by `New [WithRetryMax (-1)]`. -/
theorem c10_negative_retryMax_nil_nil_witness :
    (New [WithRetryMax (-1)]).Do (fun _ => Outcome.response 200 bodyEx) noCancel ctxCanceled =
      ⟨0, [], none, none⟩ :=
  c10_negative_retryMax_nil_nil _ _ _ _ (by decide)

/-- C2: with `retryMax = n ≥ 0` and every attempt failing at the transport
level, `Do` performs exactly `n + 1` attempts and returns the final
attempt's error with a nil response. -/
theorem c2_transport_error_exhaustion (c : Client) (o : Nat → Outcome)
    (cz : Nat → Bool) (e : GoErr) (es : Nat → GoErr) (h0 : 0 ≤ c.retryMax)
    (ho : ∀ j, o j = Outcome.transportError (es j)) (hcz : ∀ j, cz j = false) :
    (c.Do o cz e).attempts = c.retryMax.toNat + 1 ∧
    (c.Do o cz e).resp = none ∧
    (c.Do o cz e).err = some (es c.retryMax.toNat) := by
  have hDo : c.Do o cz e = doAux c o cz e c.retryWaitMin 0 (c.retryMax.toNat + 1) := by
    rw [Client.Do, if_neg (not_lt.mpr h0)]
  rw [hDo, doAux_run_err c o cz e (es c.retryMax.toNat) c.retryMax.toNat 0 c.retryWaitMin
    (fun j _ _ => ⟨by simp [triggersRetry, ho j], hcz j⟩)
    (by simpa using ho c.retryMax.toNat)]
  exact ⟨rfl, rfl, rfl⟩

/-- Witness for C2 at `retryMax = 2` with a constant transport error. -/
theorem c2_transport_error_exhaustion_witness :
    ((New [WithRetryMax 2]).Do (fun _ => Outcome.transportError (GoErr.msg "refused"))
        noCancel ctxCanceled).attempts = 3 ∧
    ((New [WithRetryMax 2]).Do (fun _ => Outcome.transportError (GoErr.msg "refused"))
        noCancel ctxCanceled).resp = none ∧
    ((New [WithRetryMax 2]).Do (fun _ => Outcome.transportError (GoErr.msg "refused"))
        noCancel ctxCanceled).err = some (GoErr.msg "refused") := by
  have h := c2_transport_error_exhaustion (New [WithRetryMax 2])
    (fun _ => Outcome.transportError (GoErr.msg "refused")) noCancel ctxCanceled
    (fun _ => GoErr.msg "refused") (by decide) (fun _ => rfl) (fun _ => rfl)
  refine ⟨?_, h.2.1, h.2.2⟩
  rw [h.1]
  decide

/-- C3: a retriable status code received on the final attempt
(`attempt = retryMax`) is not turned into an error: `Do` wraps the body
with the bounded reader and returns `(response, nil)`. -/
theorem c3_final_attempt_retriable_returned (c : Client) (o : Nat → Outcome)
    (cz : Nat → Bool) (e : GoErr) (s : Int) (b : CStream) (h0 : 0 ≤ c.retryMax)
    (hall : ∀ j, j < c.retryMax.toNat → triggersRetry (o j) = true ∧ cz j = false)
    (_hs : shouldRetry s = true)
    (ho : o c.retryMax.toNat = Outcome.response s b) :
    (c.Do o cz e).resp = some ⟨s, c.LimitedReader b⟩ ∧
    (c.Do o cz e).err = none ∧
    (c.Do o cz e).attempts = c.retryMax.toNat + 1 := by
  have hDo : c.Do o cz e = doAux c o cz e c.retryWaitMin 0 (c.retryMax.toNat + 1) := by
    rw [Client.Do, if_neg (not_lt.mpr h0)]
  rw [hDo, doAux_run c o cz e s b c.retryMax.toNat 0 c.retryWaitMin
    (fun j hj1 hj2 => hall j (by omega)) (by simpa using ho)]
  exact ⟨rfl, rfl, rfl⟩

/-- Witness for C3: a 503 on every attempt with the default `retryMax = 3`
ends with the 503 response returned (nil error) after 4 attempts. -/
theorem c3_final_attempt_retriable_returned_witness :
    ((New []).Do (fun _ => Outcome.response 503 bodyEx) noCancel ctxCanceled).resp =
      some ⟨503, (New []).LimitedReader bodyEx⟩ ∧
    ((New []).Do (fun _ => Outcome.response 503 bodyEx) noCancel ctxCanceled).err = none ∧
    ((New []).Do (fun _ => Outcome.response 503 bodyEx) noCancel ctxCanceled).attempts = 4 := by
  have h := c3_final_attempt_retriable_returned (New [])
    (fun _ => Outcome.response 503 bodyEx) noCancel ctxCanceled 503 bodyEx
    (by decide) (fun j _ => ⟨rfl, rfl⟩)
    (by decide) rfl
  refine ⟨h.1, h.2.1, ?_⟩
  rw [h.2.2]
  decide

/-- C5: if the request context is cancelled during the backoff wait that
follows attempt `k` (triggered by a transport error or retriable
response), `Do` returns the context's error with a nil response and
issues no further attempts. -/
theorem c5_cancellation_during_wait (c : Client) (o : Nat → Outcome)
    (cz : Nat → Bool) (e : GoErr) (k : Nat) (h0 : 0 ≤ c.retryMax)
    (hk : k < c.retryMax.toNat)
    (hall : ∀ j, j < k → triggersRetry (o j) = true ∧ cz j = false)
    (ht : triggersRetry (o k) = true) (hc : cz k = true) :
    (c.Do o cz e).resp = none ∧
    (c.Do o cz e).err = some e ∧
    (c.Do o cz e).attempts = k + 1 := by
  have hDo : c.Do o cz e = doAux c o cz e c.retryWaitMin 0 (c.retryMax.toNat + 1) := by
    rw [Client.Do, if_neg (not_lt.mpr h0)]
  rw [hDo, doAux_cancel_run c o cz e k c.retryMax.toNat 0 c.retryWaitMin hk
    (fun j hj1 hj2 => hall j (by omega)) (by simpa using ht) (by simpa using hc)]
  exact ⟨rfl, rfl, rfl⟩

/-- Witness for C5: cancellation during the wait after the second attempt
(attempt index 1) of a run of 503 responses. -/
theorem c5_cancellation_during_wait_witness :
    ((New []).Do (fun _ => Outcome.response 503 bodyEx) (fun i => i == 1) ctxCanceled).resp
      = none ∧
    ((New []).Do (fun _ => Outcome.response 503 bodyEx) (fun i => i == 1) ctxCanceled).err
      = some ctxCanceled ∧
    ((New []).Do (fun _ => Outcome.response 503 bodyEx) (fun i => i == 1) ctxCanceled).attempts
      = 2 :=
  c5_cancellation_during_wait (New []) (fun _ => Outcome.response 503 bodyEx)
    (fun i => i == 1) ctxCanceled 1 (by decide) (by decide)
    (fun j hj => by
      have hj0 : j = 0 := by omega
      subst hj0
      exact ⟨rfl, rfl⟩) rfl rfl

/-- C1 (amended): the decision to retry is governed solely by the fixed
`shouldRetry` switch over {429, 502, 503, 504}, not by the
`backoffStrategy` map: a response whose status code fails `shouldRetry`
is accepted and returned on the first attempt at which it is received
(body wrapped, nil error), and a response whose status code passes
`shouldRetry` is retried whenever attempts remain. -/
theorem c1_retry_decision_is_shouldRetry :
    (∀ (c : Client) (o : Nat → Outcome) (cz : Nat → Bool) (e : GoErr) (s : Int)
      (b : CStream), 0 ≤ c.retryMax → shouldRetry s = false →
      o 0 = Outcome.response s b →
      c.Do o cz e = ⟨1, [], some ⟨s, c.LimitedReader b⟩, none⟩) ∧
    (∀ (c : Client) (o : Nat → Outcome) (cz : Nat → Bool) (e : GoErr) (s : Int)
      (b : CStream), 1 ≤ c.retryMax → shouldRetry s = true →
      o 0 = Outcome.response s b → cz 0 = false →
      2 ≤ (c.Do o cz e).attempts) := by
  constructor
  · intro c o cz e s b h0 hs ho
    rw [Client.Do, if_neg (not_lt.mpr h0)]
    exact doAux_accept_now c o cz e s b 0 c.retryMax.toNat c.retryWaitMin hs ho
  · intro c o cz e s b h1 hs ho hcz
    rw [Client.Do, if_neg (by omega)]
    obtain ⟨t, ht⟩ : ∃ t, c.retryMax.toNat = t + 1 := ⟨c.retryMax.toNat - 1, by omega⟩
    rw [ht, doAux_step_retry c o cz e c.retryWaitMin 0 (t + 1) (by omega)
      (by simp [triggersRetry, ho, hs]) hcz]
    have hpos := doAux_attempts_pos c o cz e 1 t (c.getNextWait (outcomeKey (o 0)) c.retryWaitMin)
    simp only [Nat.zero_add]
    omega

/-- Witness for C1 (amended): a 200 is returned at once; a 503 with the
default `retryMax = 3` is retried at least once. -/
theorem c1_retry_decision_is_shouldRetry_witness :
    (New []).Do (fun _ => Outcome.response 200 bodyEx) noCancel ctxCanceled =
      ⟨1, [], some ⟨200, (New []).LimitedReader bodyEx⟩, none⟩ ∧
    2 ≤ ((New []).Do (fun _ => Outcome.response 503 bodyEx) noCancel ctxCanceled).attempts :=
  ⟨c1_retry_decision_is_shouldRetry.1 (New []) _ noCancel ctxCanceled 200 bodyEx
      (by decide) (by decide) rfl,
   c1_retry_decision_is_shouldRetry.2 (New []) _ noCancel ctxCanceled 503 bodyEx
      (by decide) (by decide) rfl rfl⟩

/-- Counterexample to C1 as stated: status code 500 is added to the
backoff map via `WithBackoffStrategy`, attempts remain (`retryMax = 3`),
yet a 500 response is returned on the first attempt — it is never
retried, because the hard-coded `shouldRetry` switch ignores the map. -/
theorem c1_mapped_code_not_retried :
    ((New [WithBackoffStrategy 500 constantBackoff]).backoffStrategy.lookup 500 =
      some constantBackoff) ∧
    (New [WithBackoffStrategy 500 constantBackoff]).retryMax = 3 ∧
    (New [WithBackoffStrategy 500 constantBackoff]).Do
        (fun _ => Outcome.response 500 bodyEx) noCancel ctxCanceled =
      ⟨1, [], some ⟨500, (New [WithBackoffStrategy 500 constantBackoff]).LimitedReader bodyEx⟩,
        none⟩ := by
  refine ⟨by decide, by decide, rfl⟩

/-- C4: within one `Do` call whose every attempt yields status `s`
(retriable), the waits are exactly the recurrence `waitSeq`: the first
wait is `retryWaitMin` and each subsequent one is recomputed by the
strategy of the status code that triggered the retry — always
`retryWaitMin` under `Constant`, `min(currentWait * 2, retryWaitMax)`
under `Exponential`; with `retryWaitMin = 1s`, `retryWaitMax = 10s` an
`Exponential` code yields 1s, 2s, 4s, 8s, 10s, 10s. -/
theorem c4_wait_recurrence :
    (∀ (c : Client) (o : Nat → Outcome) (cz : Nat → Bool) (e : GoErr) (s : Int)
      (bs : Nat → CStream), 0 ≤ c.retryMax → shouldRetry s = true →
      (∀ j, o j = Outcome.response s (bs j)) → (∀ j, cz j = false) →
      (c.Do o cz e).waits = (List.range c.retryMax.toNat).map (waitSeq c s)) ∧
    (∀ (c : Client) (s : Int), c.backoffStrategy.lookup s = some constantBackoff →
      ∀ k, waitSeq c s k = c.retryWaitMin) ∧
    (∀ (c : Client) (s : Int) (k : Nat),
      c.backoffStrategy.lookup s = some exponentialBackoff →
      waitSeq c s (k + 1) = min (waitSeq c s k * 2) c.retryWaitMax) ∧
    ((New [WithRetryMax 6, WithRetryWaitMax (10 * second)]).Do
        (fun _ => Outcome.response 429 bodyEx) noCancel ctxCanceled).waits =
      [1 * second, 2 * second, 4 * second, 8 * second, 10 * second, 10 * second] := by
  refine ⟨?_, ?_, ?_, by decide⟩
  · intro c o cz e s bs h0 hs ho hcz
    rw [Client.Do, if_neg (not_lt.mpr h0),
      doAux_run c o cz e s (bs c.retryMax.toNat) c.retryMax.toNat 0 c.retryWaitMin
        (fun j _ _ => ⟨by simp [triggersRetry, ho j, hs], hcz j⟩)
        (by simpa using ho c.retryMax.toNat)]
    show seqFrom c o c.retryWaitMin 0 c.retryMax.toNat = _
    rw [show c.retryWaitMin = genWaitSeq c o 0 from rfl,
      seqFrom_genWaitSeq c o c.retryMax.toNat 0]
    exact List.map_congr_left fun j _ => by
      rw [Nat.zero_add]; exact genWaitSeq_fixed c o s bs ho j
  · intro c s hlk k
    induction k with
    | zero => rfl
    | succ g ih =>
      show c.getNextWait s (waitSeq c s g) = c.retryWaitMin
      rw [Client.getNextWait, hlk]
      simp [constantBackoff, exponentialBackoff]
  · intro c s k hlk
    show c.getNextWait s (waitSeq c s k) = _
    rw [Client.getNextWait, hlk]
    simp only [exponentialBackoff, if_pos rfl]
    show (if waitSeq c s k * 2 > c.retryWaitMax then c.retryWaitMax else waitSeq c s k * 2) =
      min (waitSeq c s k * 2) c.retryWaitMax
    by_cases h : waitSeq c s k * 2 > c.retryWaitMax
    · rw [if_pos h, min_eq_right (le_of_lt h)]
    · rw [if_neg h, min_eq_left (not_lt.mp h)]

/-- Witness for C4: the concrete exponential client of the claim, plus
the constant case at 503 and the exponential cap step. -/
theorem c4_wait_recurrence_witness :
    ((New [WithRetryMax 6, WithRetryWaitMax (10 * second)]).Do
        (fun _ => Outcome.response 429 bodyEx) noCancel ctxCanceled).waits =
      (List.range 6).map (waitSeq (New [WithRetryMax 6, WithRetryWaitMax (10 * second)]) 429) ∧
    waitSeq (New []) 503 5 = (New []).retryWaitMin ∧
    waitSeq (New []) 429 3 = min (waitSeq (New []) 429 2 * 2) (New []).retryWaitMax := by
  refine ⟨?_, ?_, ?_⟩
  · have h := c4_wait_recurrence.1 (New [WithRetryMax 6, WithRetryWaitMax (10 * second)])
      (fun _ => Outcome.response 429 bodyEx) noCancel ctxCanceled 429 (fun _ => bodyEx)
      (by decide) (by decide) (fun _ => rfl) (fun _ => rfl)
    rw [h]
    decide
  · exact c4_wait_recurrence.2.1 (New []) 503 (by decide) 5
  · exact c4_wait_recurrence.2.2.1 (New []) 429 2 (by decide)

/-- C8: the wait recomputation after a transport-level failure at attempt
`i` uses the sentinel status key 0, which falls back to constant backoff
when the map has no entry for 0 — so with such a configuration (the
default map included) the wait duration that follows a transport error
equals `retryWaitMin`; stated on the trace, the sleep performed after
attempt `i + 1` is `retryWaitMin`, and `getNextWait 0` is constantly
`retryWaitMin`. -/
theorem c8_transport_error_wait_is_constant (c : Client) (o : Nat → Outcome)
    (cz : Nat → Bool) (e : GoErr) (L i : Nat) (er : GoErr)
    (hmap : c.backoffStrategy.lookup 0 = none) (h0 : 0 ≤ c.retryMax)
    (hL : L ≤ c.retryMax.toNat)
    (hall : ∀ j, j < L → triggersRetry (o j) = true ∧ cz j = false)
    (hi : i + 1 < L) (ho : o i = Outcome.transportError er) :
    (c.Do o cz e).waits[i + 1]? = some c.retryWaitMin ∧
    (∀ w, c.getNextWait 0 w = c.retryWaitMin) := by
  have hnext : ∀ w, c.getNextWait 0 w = c.retryWaitMin := fun w => by
    rw [Client.getNextWait, hmap]
  refine ⟨?_, hnext⟩
  have hDo : c.Do o cz e = doAux c o cz e c.retryWaitMin 0 (c.retryMax.toNat + 1) := by
    rw [Client.Do, if_neg (not_lt.mpr h0)]
  have htake := doAux_waits_take c o cz e L c.retryMax.toNat 0 c.retryWaitMin hL
    (fun j hj1 hj2 => hall j (by omega))
  have hseq : seqFrom c o c.retryWaitMin 0 L =
      (List.range L).map (genWaitSeq c o) := by
    rw [show c.retryWaitMin = genWaitSeq c o 0 from rfl, seqFrom_genWaitSeq c o L 0]
    exact List.map_congr_left fun j _ => by rw [Nat.zero_add]
  have hval : genWaitSeq c o (i + 1) = c.retryWaitMin := by
    show c.getNextWait (outcomeKey (o i)) (genWaitSeq c o i) = c.retryWaitMin
    rw [ho]
    exact hnext _
  rw [hDo, show (doAux c o cz e c.retryWaitMin 0 (c.retryMax.toNat + 1)).waits[i + 1]? =
      ((doAux c o cz e c.retryWaitMin 0 (c.retryMax.toNat + 1)).waits.take L)[i + 1]? by
    rw [List.getElem?_take, if_pos hi], htake, hseq, List.getElem?_map,
    List.getElem?_range hi, Option.map_some', hval]

/-- Witness for C8: with the default client, a transport error at attempt
0 of an otherwise-429 run makes the sleep after attempt 1 equal to
`retryWaitMin`, and `getNextWait 0` returns `retryWaitMin`. -/
theorem c8_transport_error_wait_is_constant_witness :
    ((New []).Do
        (fun j => if j = 0 then Outcome.transportError (GoErr.msg "refused")
                  else Outcome.response 429 bodyEx) noCancel ctxCanceled).waits[1]? =
      some (New []).retryWaitMin ∧
    (New []).getNextWait 0 (5 * second) = (New []).retryWaitMin := by
  have h := c8_transport_error_wait_is_constant (New [])
    (fun j => if j = 0 then Outcome.transportError (GoErr.msg "refused")
              else Outcome.response 429 bodyEx) noCancel ctxCanceled 2 0
    (GoErr.msg "refused") (by decide) (by decide) (by decide)
    (fun j hj => by
      match j, hj with
      | 0, _ => exact ⟨rfl, rfl⟩
      | 1, _ => exact ⟨rfl, rfl⟩)
    (by omega) rfl
  exact ⟨h.1, h.2 (5 * second)⟩

/-- C6: reading a body of `M > N` available bytes through the wrapper
built by `LimitedReader` on a client with `maxResponseSize = N` yields
exactly `N` cumulative bytes; every further read returns the end-of-stream
signal `io.EOF` (not a distinct error) although the stream has more data;
and `Close()` still closes the underlying stream. -/
theorem c6_bounded_body_truncation (c : Client) (st : CStream) (N b fuel : Nat)
    (hsize : c.maxResponseSize = (N : Int)) (hb : 1 ≤ b)
    (hN : N < st.bytes.length) (hfuel : N + 1 ≤ fuel) :
    (drain b fuel (c.LimitedReader st)).1 = N ∧
    (∀ m, ((drain b fuel (c.LimitedReader st)).2.Read m).1 = (0, some GoErr.eof)) ∧
    ((drain b fuel (c.LimitedReader st)).2.Close).2.stream.closeCount =
      st.closeCount + 1 := by
  have hwrap : c.LimitedReader st = ⟨st, (N : Int)⟩ := by
    rw [Client.LimitedReader, hsize]
  have h := drain_spec b hb fuel ⟨st, (N : Int)⟩ (by positivity)
    (by simpa using le_of_lt hN) (by simpa using hfuel)
  rw [hwrap]
  refine ⟨by simpa using h.1, ?_, ?_⟩
  · intro m
    rw [limitedReadCloser.Read, if_pos (le_of_eq h.2.1)]
  · rw [limitedReadCloser.Close]
    show ((drain b fuel ⟨st, (N : Int)⟩).2.stream.close).2.closeCount = st.closeCount + 1
    rw [CStream.close]
    show (drain b fuel ⟨st, (N : Int)⟩).2.stream.closeCount + 1 = st.closeCount + 1
    rw [h.2.2.2.1]

/-- Witness for C6: a 5-byte body read through a 3-byte cap with 2-byte
buffers delivers 3 bytes, then reads give `(0, io.EOF)`, and closing
closes the underlying stream once. -/
theorem c6_bounded_body_truncation_witness :
    (drain 2 4 ((New [WithMaxResponseSize 3]).LimitedReader
      ⟨[1, 2, 3, 4, 5], GoErr.eof, 0, false⟩)).1 = 3 ∧
    ((drain 2 4 ((New [WithMaxResponseSize 3]).LimitedReader
      ⟨[1, 2, 3, 4, 5], GoErr.eof, 0, false⟩)).2.Read 2).1 = (0, some GoErr.eof) ∧
    ((drain 2 4 ((New [WithMaxResponseSize 3]).LimitedReader
      ⟨[1, 2, 3, 4, 5], GoErr.eof, 0, false⟩)).2.Close).2.stream.closeCount = 1 := by
  have h := c6_bounded_body_truncation (New [WithMaxResponseSize 3])
    ⟨[1, 2, 3, 4, 5], GoErr.eof, 0, false⟩ 3 2 4 (by decide) (by decide)
    (by decide) (by decide)
  exact ⟨h.1, h.2.1 2, h.2.2⟩

/-- C7 (amended): `Close()` on the bounded body reader delegates every
call to the underlying closer with no exactly-once guard: closing the
wrapper `k` times closes the underlying resource `k` times. -/
theorem c7_close_delegates_each_call (l : limitedReadCloser) (k : Nat) :
    (closeIter k l).stream.closeCount = l.stream.closeCount + k := by
  induction k generalizing l with
  | zero => rfl
  | succ g ih =>
    show (closeIter g (l.Close).2).stream.closeCount = l.stream.closeCount + (g + 1)
    rw [ih (l.Close).2]
    show l.stream.closeCount + 1 + g = l.stream.closeCount + (g + 1)
    omega

/-- Counterexample to C7 as stated: over an underlying closer that is not
idempotent, calling `Close()` twice on the wrapper releases the
underlying resource twice (close count 2, not 1) and the second call
returns an error — the wrapper adds no exactly-once protection. -/
theorem c7_double_close_counterexample :
    (((limitedReadCloser.mk ⟨[], GoErr.eof, 0, true⟩ 3).Close).2.Close).1 =
      some (GoErr.msg "already closed") ∧
    (((limitedReadCloser.mk ⟨[], GoErr.eof, 0, true⟩ 3).Close).2.Close).2.stream.closeCount
      = 2 := by
  exact ⟨rfl, rfl⟩

/-- C9: while the byte budget is not exhausted (`N > 0`), a read error
produced by the underlying stream is returned to the caller unchanged —
same error value, same (zero) byte count — and the reader state is left
untouched by the size-limiting logic. -/
theorem c9_underlying_error_passthrough (l : limitedReadCloser) (m : Nat)
    (h1 : 0 < l.N) (h2 : l.stream.bytes = []) :
    (l.Read m).1 = (0, some l.stream.endErr) ∧ (l.Read m).2 = l := by
  have hread : ∀ k, l.stream.read k = ((0, some l.stream.endErr), l.stream) :=
    fun k => by rw [CStream.read, if_pos h2]
  rw [limitedReadCloser.Read, if_neg (not_le.mpr h1)]
  simp only [hread]
  refine ⟨by trivial, ?_⟩
  show (⟨l.stream, l.N - ((0 : Nat) : Int)⟩ : limitedReadCloser) = l
  cases l
  simp

/-- Witness for C9: a connection reset mid-body with 5 budget bytes left
is surfaced verbatim. -/
theorem c9_underlying_error_passthrough_witness :
    ((limitedReadCloser.mk ⟨[], GoErr.msg "connection reset by peer", 0, false⟩ 5).Read 4).1 =
      (0, some (GoErr.msg "connection reset by peer")) ∧
    ((limitedReadCloser.mk ⟨[], GoErr.msg "connection reset by peer", 0, false⟩ 5).Read 4).2 =
      limitedReadCloser.mk ⟨[], GoErr.msg "connection reset by peer", 0, false⟩ 5 :=
  c9_underlying_error_passthrough
    (limitedReadCloser.mk ⟨[], GoErr.msg "connection reset by peer", 0, false⟩ 5) 4
    (by decide) rfl
